import Mathlib

/-!
Verification of the superqt rate-control core (`superqt/utils/_throttler.py`
and `superqt/utils/_misc.py`) against its natural-language specification.

The Python classes are shallowly embedded as executable Lean functions:

* `GenericSignalThrottler` becomes `ThrottlerState` together with the step
  functions `throttle`, `cancel`, `flush`, `emitTriggered`,
  `maybeEmitTriggered`.  The single-shot `QTimer` is represented by the
  fields `timerActive`/`deadline` (absolute firing time in ms) together
  with `interval` (the configured timeout).  `fireTimer` models the timer
  expiring: Qt deactivates a single-shot timer and then runs the connected
  slot (`_maybeEmitTriggered`) at the deadline.  Each step function returns
  the list of `triggered` emission times it produced.
* Time is discrete (`Nat` milliseconds); a timed run processes a list of
  externally supplied events at given times, letting the timer fire
  whenever its deadline has been reached (`advanceTo`).
* `ThrottledCallable` becomes `TCState`: the inherited throttler state plus
  the latest call arguments and the list of all `concurrent.futures.Future`
  objects ever created (the last one is `self._future`).  The wrapped
  function is a parameter `α → Except ε ρ`; `Except.error` models a raised
  exception, which propagates out of the firing slot.
* `throttling_disabled` from `_misc.py` becomes `throttlingDisabled`,
  acting on an object whose `throttle`/`flush` attributes are method slots
  that the context manager swaps and restores.
* The descriptor protocol of `ThrottledCallable.__get__` is modelled with an
  explicit object heap (`DescWorld`): Python object identity becomes a heap
  index, the per-instance cache written by `setattr(instance, name, ...)`
  becomes the association list `instAttrs`.
-/

namespace Superqt

inductive Kind where
  | Throttler
  | Debouncer
deriving DecidableEq, Repr

inductive EmissionPolicy where
  | Trailing
  | Leading
deriving DecidableEq, Repr

/-- State of a `GenericSignalThrottler` together with its single-shot
`QTimer`.  `interval` is the timeout in ms, `deadline` the absolute time at
which the armed timer will fire (meaningful only while `timerActive`). -/
structure ThrottlerState where
  kind : Kind
  emissionPolicy : EmissionPolicy
  interval : Nat
  hasPendingEmission : Bool
  timerActive : Bool
  deadline : Nat
deriving DecidableEq, Repr

/-- `QTimer.start()` at absolute time `now`: (re)arm the single-shot timer
for `interval` ms from now. -/
def timerStart (now : Nat) (s : ThrottlerState) : ThrottlerState :=
  { s with timerActive := true, deadline := now + s.interval }

/-- `GenericSignalThrottler._emitTriggered`: clear the pending flag, emit
`triggered` (recorded as the emission time), then restart the timer.  The
timer restart is unconditional in the source, for both kinds. -/
def emitTriggered (now : Nat) (s : ThrottlerState) : ThrottlerState × List Nat :=
  let s1 := { s with hasPendingEmission := false }
  (timerStart now s1, [now])

/-- `GenericSignalThrottler._maybeEmitTriggered`: emit only when an emission
is pending. -/
def maybeEmitTriggered (now : Nat) (s : ThrottlerState) : ThrottlerState × List Nat :=
  if s.hasPendingEmission = true then emitTriggered now s else (s, [])

/-- `GenericSignalThrottler.throttle`: record the pending emission; under a
Leading policy with an idle timer, emit immediately; then arm the timer —
a Throttler only when the timer is idle (start, not restart), a Debouncer
always (restart). -/
def throttle (now : Nat) (s : ThrottlerState) : ThrottlerState × List Nat :=
  let s1 := { s with hasPendingEmission := true }
  let p :=
    if s1.emissionPolicy = EmissionPolicy.Leading ∧ s1.timerActive = false then
      emitTriggered now s1
    else (s1, [])
  match p.1.kind with
  | Kind.Throttler =>
      if p.1.timerActive = false then (timerStart now p.1, p.2) else p
  | Kind.Debouncer => (timerStart now p.1, p.2)

/-- `GenericSignalThrottler.cancel`: clear the pending flag; nothing else. -/
def cancel (s : ThrottlerState) : ThrottlerState :=
  { s with hasPendingEmission := false }

/-- `GenericSignalThrottler.flush`: run `_maybeEmitTriggered` now. -/
def flush (now : Nat) (s : ThrottlerState) : ThrottlerState × List Nat :=
  maybeEmitTriggered now s

/-- The single-shot timer expires: Qt marks the timer inactive, then the
connected slot `_maybeEmitTriggered` runs at the deadline. -/
def fireTimer (s : ThrottlerState) : ThrottlerState × List Nat :=
  maybeEmitTriggered s.deadline { s with timerActive := false }

/-- Let the timer fire as long as its deadline is within `t`.  After one
expiry `hasPendingEmission` is false, so a second expiry (possible because
`_emitTriggered` rearms the timer) necessarily deactivates the timer;
two steps therefore exhaust all expiries up to `t`. -/
def advanceTo (t : Nat) (s : ThrottlerState) : ThrottlerState × List Nat :=
  if s.timerActive = true ∧ s.deadline ≤ t then
    if (fireTimer s).1.timerActive = true ∧ (fireTimer s).1.deadline ≤ t then
      ((fireTimer (fireTimer s).1).1, (fireTimer s).2 ++ (fireTimer (fireTimer s).1).2)
    else fireTimer s
  else (s, [])

/-- External events a caller can perform on the controller. -/
inductive Op where
  | throttleOp
  | cancelOp
  | flushOp
deriving DecidableEq, Repr

def applyOp (now : Nat) (op : Op) (s : ThrottlerState) : ThrottlerState × List Nat :=
  match op with
  | Op.throttleOp => throttle now s
  | Op.cancelOp => (cancel s, [])
  | Op.flushOp => flush now s

/-- Process one timed event: first let the timer fire up to the event time,
then apply the event. -/
def stepEvent (ev : Nat × Op) (s : ThrottlerState) : ThrottlerState × List Nat :=
  let p := advanceTo ev.1 s
  let q := applyOp ev.1 ev.2 p.1
  (q.1, p.2 ++ q.2)

def runTrace : List (Nat × Op) → ThrottlerState → ThrottlerState × List Nat
  | [], s => (s, [])
  | ev :: evs, s =>
      let p := stepEvent ev s
      let q := runTrace evs p.1
      (q.1, p.2 ++ q.2)

/-- Run a timed trace of events and then observe until time `horizon`. -/
def runUntil (evs : List (Nat × Op)) (horizon : Nat) (s : ThrottlerState) :
    ThrottlerState × List Nat :=
  let p := runTrace evs s
  let q := advanceTo horizon p.1
  (q.1, p.2 ++ q.2)

/-- A freshly constructed `GenericSignalThrottler` with the given timeout:
no pending emission, timer idle. -/
def initialState (k : Kind) (pol : EmissionPolicy) (interval : Nat) : ThrottlerState :=
  { kind := k, emissionPolicy := pol, interval := interval,
    hasPendingEmission := false, timerActive := false, deadline := 0 }

/-!
### ThrottledCallable

`ThrottledCallable` inherits the state machine above; its `triggered`
signal is connected to `_set_future_result`, which invokes the wrapped
function on the latest stored arguments and resolves the current future.
A `concurrent.futures.Future` here is `pending`, `cancelled`, or
`resolved`; `Future.done()` is true except in the `pending` state, and the
source never calls `set_exception`, so there is no failed-future state.
Exceptions raised by the wrapped function are modelled by the wrapped
function returning `Except.error`; they propagate out of the firing slot,
which each step reports as an `Option ε` alongside the new state. -/

inductive FutureState (ρ : Type) where
  | pending
  | cancelled
  | resolved (r : ρ)
deriving DecidableEq, Repr

/-- `concurrent.futures.Future.done()`. -/
def futureDone {ρ : Type} : FutureState ρ → Bool
  | FutureState.pending => false
  | FutureState.cancelled => true
  | FutureState.resolved _ => true

/-- Replace the last element of a list (mutation of the object currently
referenced by `self._future`). -/
def setLast {β : Type} : List β → β → List β
  | [], _ => []
  | [_], b => [b]
  | x :: xs, b => x :: setLast xs b

/-- State of a `ThrottledCallable`: the inherited throttler state, the
latest arguments (`self._args`), and every future the object has created,
in creation order; the last entry is the current `self._future`. -/
structure TCState (α ρ : Type) where
  thr : ThrottlerState
  latestArgs : α
  futures : List (FutureState ρ)
deriving DecidableEq, Repr

/-- `ThrottledCallable._set_future_result`: call the wrapped function on
the stored arguments; on success resolve the current future, on a raise
propagate the exception (the future is not touched). -/
def tcSetFutureResult {α ρ ε : Type} (wrapped : α → Except ε ρ) (s : TCState α ρ) :
    TCState α ρ × Option ε :=
  match wrapped s.latestArgs with
  | Except.ok r => ({ s with futures := setLast s.futures (FutureState.resolved r) }, none)
  | Except.error e => (s, some e)

/-- `_emitTriggered` as inherited by `ThrottledCallable`: clear the pending
flag, emit `triggered` — which synchronously runs the connected slot
`_set_future_result` — then restart the timer.  A raise in the slot
escapes before the timer restart. -/
def tcEmitTriggered {α ρ ε : Type} (now : Nat) (wrapped : α → Except ε ρ)
    (s : TCState α ρ) : TCState α ρ × Option ε :=
  let s1 := { s with thr := { s.thr with hasPendingEmission := false } }
  match tcSetFutureResult wrapped s1 with
  | (s2, some e) => (s2, some e)
  | (s2, none) => ({ s2 with thr := timerStart now s2.thr }, none)

def tcMaybeEmitTriggered {α ρ ε : Type} (now : Nat) (wrapped : α → Except ε ρ)
    (s : TCState α ρ) : TCState α ρ × Option ε :=
  if s.thr.hasPendingEmission = true then tcEmitTriggered now wrapped s else (s, none)

/-- `throttle` as inherited by `ThrottledCallable` (a raise from a Leading
emission skips the timer-arming tail of the method). -/
def tcThrottle {α ρ ε : Type} (now : Nat) (wrapped : α → Except ε ρ)
    (s : TCState α ρ) : TCState α ρ × Option ε :=
  let s1 := { s with thr := { s.thr with hasPendingEmission := true } }
  let p :=
    if s1.thr.emissionPolicy = EmissionPolicy.Leading ∧ s1.thr.timerActive = false then
      tcEmitTriggered now wrapped s1
    else (s1, none)
  match p with
  | (s2, some e) => (s2, some e)
  | (s2, none) =>
      match s2.thr.kind with
      | Kind.Throttler =>
          if s2.thr.timerActive = false then
            ({ s2 with thr := timerStart now s2.thr }, none)
          else (s2, none)
      | Kind.Debouncer => ({ s2 with thr := timerStart now s2.thr }, none)

/-- `cancel` as inherited by `ThrottledCallable`: only the controller's
pending flag is cleared; the futures are untouched. -/
def tcCancel {α ρ : Type} (s : TCState α ρ) : TCState α ρ :=
  { s with thr := cancel s.thr }

def tcFlush {α ρ ε : Type} (now : Nat) (wrapped : α → Except ε ρ)
    (s : TCState α ρ) : TCState α ρ × Option ε :=
  tcMaybeEmitTriggered now wrapped s

/-- `ThrottledCallable.__call__`: cancel the current future unless it is
done, create a fresh pending future, store the new arguments, and
throttle. -/
def tcCall {α ρ ε : Type} (now : Nat) (a : α) (wrapped : α → Except ε ρ)
    (s : TCState α ρ) : TCState α ρ × Option ε :=
  let futures :=
    if futureDone ((s.futures.getLast?).getD FutureState.pending) = true then s.futures
    else setLast s.futures FutureState.cancelled
  let s1 := { s with futures := futures ++ [FutureState.pending], latestArgs := a }
  tcThrottle now wrapped s1

/-- Timer expiry for a `ThrottledCallable`. -/
def tcFireTimer {α ρ ε : Type} (wrapped : α → Except ε ρ) (s : TCState α ρ) :
    TCState α ρ × Option ε :=
  tcMaybeEmitTriggered s.thr.deadline wrapped
    { s with thr := { s.thr with timerActive := false } }

/-- Let the timer fire as long as its deadline is within `t`; a raise
escapes to the event loop (and leaves the timer unarmed). -/
def tcAdvanceTo {α ρ ε : Type} (t : Nat) (wrapped : α → Except ε ρ)
    (s : TCState α ρ) : TCState α ρ × Option ε :=
  if s.thr.timerActive = true ∧ s.thr.deadline ≤ t then
    if (tcFireTimer wrapped s).2.isNone = true ∧
        (tcFireTimer wrapped s).1.thr.timerActive = true ∧
        (tcFireTimer wrapped s).1.thr.deadline ≤ t then
      tcFireTimer wrapped (tcFireTimer wrapped s).1
    else tcFireTimer wrapped s
  else (s, none)

inductive TCOp (α : Type) where
  | callOp (a : α)
  | cancelOp
  | flushOp

def tcApplyOp {α ρ ε : Type} (now : Nat) (op : TCOp α) (wrapped : α → Except ε ρ)
    (s : TCState α ρ) : TCState α ρ × Option ε :=
  match op with
  | TCOp.callOp a => tcCall now a wrapped s
  | TCOp.cancelOp => (tcCancel s, none)
  | TCOp.flushOp => tcFlush now wrapped s

/-- Process one timed event; exceptions escaping to the event loop are
collected (the Qt loop reports them and continues). -/
def tcStepEvent {α ρ ε : Type} (ev : Nat × TCOp α) (wrapped : α → Except ε ρ)
    (s : TCState α ρ) : TCState α ρ × List ε :=
  let p := tcAdvanceTo ev.1 wrapped s
  let q := tcApplyOp ev.1 ev.2 wrapped p.1
  (q.1, p.2.toList ++ q.2.toList)

def tcRunTrace {α ρ ε : Type} :
    List (Nat × TCOp α) → (α → Except ε ρ) → TCState α ρ → TCState α ρ × List ε
  | [], _, s => (s, [])
  | ev :: evs, wrapped, s =>
      let p := tcStepEvent ev wrapped s
      let q := tcRunTrace evs wrapped p.1
      (q.1, p.2 ++ q.2)

def tcRunUntil {α ρ ε : Type} (evs : List (Nat × TCOp α)) (horizon : Nat)
    (wrapped : α → Except ε ρ) (s : TCState α ρ) : TCState α ρ × List ε :=
  let p := tcRunTrace evs wrapped s
  let q := tcAdvanceTo horizon wrapped p.1
  (q.1, p.2 ++ q.2.toList)

/-- A freshly constructed `ThrottledCallable`: idle controller, the
constructor's initial (never-resolved) `Future()`, and the initial empty
argument tuple, represented by `a0`. -/
def tcInitial {α ρ : Type} (k : Kind) (pol : EmissionPolicy) (interval : Nat)
    (a0 : α) : TCState α ρ :=
  { thr := initialState k pol interval, latestArgs := a0,
    futures := [FutureState.pending] }

/-!
### throttling_disabled (`superqt/utils/_misc.py`)

The context manager swaps the instance attributes `throttle` and `flush`
of a `GenericSignalThrottler`.  We model the two attributes as method
slots: `original` dispatches to the class methods modelled above,
`swapped` carries the context manager's replacement behavior
(`lambda: obj.triggered.emit()` for throttle — an unconditional immediate
emission that leaves the controller state alone — and `lambda: None` for
flush). -/

inductive MethodSlot where
  | original
  | swapped
deriving DecidableEq, Repr

structure SwappableThrottler where
  st : ThrottlerState
  throttleSlot : MethodSlot
  flushSlot : MethodSlot
deriving DecidableEq, Repr

/-- Calling `obj.throttle()` dispatches through the instance slot. -/
def doThrottle (now : Nat) (o : SwappableThrottler) : SwappableThrottler × List Nat :=
  match o.throttleSlot with
  | MethodSlot.original =>
      let p := throttle now o.st
      ({ o with st := p.1 }, p.2)
  | MethodSlot.swapped => (o, [now])

/-- Calling `obj.flush()` dispatches through the instance slot. -/
def doFlush (now : Nat) (o : SwappableThrottler) : SwappableThrottler × List Nat :=
  match o.flushSlot with
  | MethodSlot.original =>
      let p := flush now o.st
      ({ o with st := p.1 }, p.2)
  | MethodSlot.swapped => (o, [])

inductive ScopedOp where
  | sThrottle (t : Nat)
  | sFlush (t : Nat)

/-- Operations the code inside the `with` block performs on the object. -/
def runScoped : List ScopedOp → SwappableThrottler → SwappableThrottler × List Nat
  | [], o => (o, [])
  | ScopedOp.sThrottle t :: ops, o =>
      let p := doThrottle t o
      let q := runScoped ops p.1
      (q.1, p.2 ++ q.2)
  | ScopedOp.sFlush t :: ops, o =>
      let p := doFlush t o
      let q := runScoped ops p.1
      (q.1, p.2 ++ q.2)

/-- The object handed to `throttling_disabled`: a throttler itself, an
object whose `throttler` attribute is one, or anything else. -/
inductive ThrottleTarget where
  | controller (o : SwappableThrottler)
  | withThrottlerAttr (o : SwappableThrottler)
  | notAdaptable

/-- Outcome of the whole `with throttling_disabled(obj): body` block:
the `TypeError` raised at entry, normal completion, or the body's own
exception propagating after the `finally` clause ran.  The object is
carried in its final state, together with the emissions produced inside
the scope. -/
inductive CMOutcome where
  | typeErr
  | completed (o : SwappableThrottler) (emitted : List Nat)
  | raised (err : String) (o : SwappableThrottler) (emitted : List Nat)

/-- Body of `throttling_disabled` once the throttler is resolved: save the
current `throttle`/`flush` attributes, install the replacements, run the
body (which may end in an exception), and restore the saved attributes in
the `finally` clause on every exit path. -/
def throttlingDisabledCore (o : SwappableThrottler) (body : List ScopedOp)
    (failure : Option String) : CMOutcome :=
  let prevThrottle := o.throttleSlot
  let prevFlush := o.flushSlot
  let o1 := { o with throttleSlot := MethodSlot.swapped,
                     flushSlot := MethodSlot.swapped }
  let p := runScoped body o1
  let o2 := { p.1 with throttleSlot := prevThrottle, flushSlot := prevFlush }
  match failure with
  | none => CMOutcome.completed o2 p.2
  | some e => CMOutcome.raised e o2 p.2

/-- `throttling_disabled(obj)`: a `GenericSignalThrottler` (or an object
adaptable through its `throttler` attribute) enters the scope; anything
else raises `TypeError` immediately. -/
def throttlingDisabled (target : ThrottleTarget) (body : List ScopedOp)
    (failure : Option String) : CMOutcome :=
  match target with
  | ThrottleTarget.controller o => throttlingDisabledCore o body failure
  | ThrottleTarget.withThrottlerAttr o => throttlingDisabledCore o body failure
  | ThrottleTarget.notAdaptable => CMOutcome.typeErr

/-- The throttle-call times of the body, in order: exactly the emissions
the swapped `throttle` produces. -/
def throttleTimes : List ScopedOp → List Nat
  | [] => []
  | ScopedOp.sThrottle t :: ops => t :: throttleTimes ops
  | ScopedOp.sFlush _ :: ops => throttleTimes ops

/-!
### The descriptor protocol of `ThrottledCallable.__get__`

Python object identity is modelled with an explicit heap of
`ThrottledCallable` objects; a reference is an index into the heap.  The
object record carries the configuration and identity data `__get__` reads:
the timer type, `_name` (set by `__set_name__`, `none` when it never ran;
Python's `not self._name` is also true for the empty string), the
static-method flag, and which receiver the wrapped callable is bound to.  The
per-instance cache written by `setattr(instance, self._name, bound_caller)`
is the association list `instAttrs`; because `ThrottledCallable` is a
non-data descriptor, an instance-dict entry shadows the class attribute on
later lookups. -/

structure TCObject (α ρ : Type) where
  tc : TCState α ρ
  timerType : Nat
  name : Option String
  isStatic : Bool
  boundTo : Option Nat
deriving Repr

structure DescWorld (α ρ : Type) where
  heap : List (TCObject α ρ)
  templateRef : Nat
  instAttrs : List (Nat × Nat)
deriving Repr

def alistLookup : List (Nat × Nat) → Nat → Option Nat
  | [], _ => none
  | p :: ps, i => if p.1 = i then some p.2 else alistLookup ps i

/-- Python truthiness of `self._name` (`None` and `""` are falsy). -/
def nameFalsy : Option String → Bool
  | none => true
  | some s => s = ""

/-- The fresh `ThrottledCallable` built by `__get__` for a receiver: same
kind and emission policy through the constructor, same timeout and timer
type through `setTimeout`/`setTimerType`, wrapped callable bound to the
receiver, and brand-new controller/args/future state. -/
def freshBound {α ρ : Type} (tmpl : TCObject α ρ) (receiver : Nat) (a0 : α) :
    TCObject α ρ :=
  { tc := tcInitial tmpl.tc.thr.kind tmpl.tc.thr.emissionPolicy tmpl.tc.thr.interval a0,
    timerType := tmpl.timerType,
    name := none,
    isStatic := false,
    boundTo := some receiver }

/-- `ThrottledCallable.__get__`: class access, a missing/falsy `_name`, or
a static wrapped callable return the shared template object itself;
otherwise a fresh bound `ThrottledCallable` is allocated and cached on the
receiver under the template's name. -/
def dunderGet {α ρ : Type} (a0 : α) (w : DescWorld α ρ) (inst : Option Nat) :
    Nat × DescWorld α ρ :=
  match w.heap.get? w.templateRef with
  | none => (w.templateRef, w)
  | some tmpl =>
      match inst with
      | none => (w.templateRef, w)
      | some i =>
          if nameFalsy tmpl.name = true ∨ tmpl.isStatic = true then
            (w.templateRef, w)
          else
            let r := w.heap.length
            let w1 := { w with heap := w.heap ++ [freshBound tmpl i a0],
                               instAttrs := (i, r) :: w.instAttrs }
            (r, w1)

/-- Attribute access `receiver.name` (or `Owner.name` when `inst = none`):
an instance-dict entry shadows the non-data descriptor; otherwise the
descriptor's `__get__` runs. -/
def accessAttr {α ρ : Type} (a0 : α) (w : DescWorld α ρ) (inst : Option Nat) :
    Nat × DescWorld α ρ :=
  match inst with
  | none => dunderGet a0 w none
  | some i =>
      match alistLookup w.instAttrs i with
      | some r => (r, w)
      | none => dunderGet a0 w (some i)

/-- Invoke the throttled method through receiver `i` at time `t` with
argument `a`.  The wrapped callable of an object is determined by what it
is bound to (`fm none` is the unbound template function). -/
def callVia {α ρ ε : Type} (a0 : α) (fm : Option Nat → α → Except ε ρ)
    (i : Nat) (t : Nat) (a : α) (w : DescWorld α ρ) : DescWorld α ρ × List ε :=
  let p := accessAttr a0 w (some i)
  match p.2.heap.get? p.1 with
  | none => (p.2, [])
  | some obj =>
      let q := tcCall t a (fm obj.boundTo) obj.tc
      ({ p.2 with heap := p.2.heap.set p.1 { obj with tc := q.1 } }, q.2.toList)

/-- A burst of calls, all through receiver `i`. -/
def callsVia {α ρ ε : Type} (a0 : α) (fm : Option Nat → α → Except ε ρ)
    (i : Nat) : List (Nat × α) → DescWorld α ρ → DescWorld α ρ × List ε
  | [], w => (w, [])
  | c :: cs, w =>
      let p := callVia a0 fm i c.1 c.2 w
      let q := callsVia a0 fm i cs p.1
      (q.1, p.2 ++ q.2)

/-!
## Claims
-/

/-- C7: `cancel()` clears `hasPendingEmission` without firing, leaves an
already-armed timer untouched (`timerActive` and the deadline are
unchanged), and suppresses the pending trailing firing: when the timer
later expires with no new event in between (`advanceTo` any time `t`),
no `triggered` emission is produced for that cycle. -/
theorem cancel_suppresses_pending_trailing (s : ThrottlerState) (t : Nat) :
    (cancel s).hasPendingEmission = false ∧
    (cancel s).timerActive = s.timerActive ∧
    (cancel s).deadline = s.deadline ∧
    (advanceTo t (cancel s)).2 = [] ∧
    (advanceTo t (cancel s)).1.hasPendingEmission = false := by
  refine ⟨rfl, rfl, rfl, ?_, ?_⟩ <;>
    (simp [cancel, advanceTo, fireTimer, maybeEmitTriggered]; split <;> rfl)

/-- C3 counterexample: a Debounce-kind controller whose timer expires at
t = 50 with a pending emission does fire (emission at 50), but the timer
is re-armed by `_emitTriggered` and is ACTIVE after the firing — not
inactive as the claim states. -/
theorem debouncer_expiry_cex :
    (fireTimer ⟨Kind.Debouncer, EmissionPolicy.Trailing, 50, true, true, 50⟩).2 = [50] ∧
    (fireTimer ⟨Kind.Debouncer, EmissionPolicy.Trailing, 50, true, true, 50⟩).1.timerActive
      = true := by
  exact ⟨rfl, rfl⟩

/-- C3 amended: when the timer of a Debounce-kind controller expires with
`hasPendingEmission` true, the controller fires once at the deadline and
clears the flag, but `_emitTriggered` re-arms the timer unconditionally
(for Debounce just as for Throttle): `timerActive` is true after the
firing, with a new deadline one timeout later; only the following expiry,
reached with no new event, produces no firing and leaves the timer
inactive. -/
theorem debouncer_expiry_rearms (s : ThrottlerState)
    (hk : s.kind = Kind.Debouncer) (hp : s.hasPendingEmission = true) :
    (fireTimer s).2 = [s.deadline] ∧
    (fireTimer s).1.hasPendingEmission = false ∧
    (fireTimer s).1.timerActive = true ∧
    (fireTimer s).1.deadline = s.deadline + s.interval ∧
    (fireTimer (fireTimer s).1).2 = [] ∧
    (fireTimer (fireTimer s).1).1.timerActive = false := by
  simp [fireTimer, maybeEmitTriggered, emitTriggered, timerStart, hp]

/-- Witness for C3's amended theorem at the counterexample state. -/
theorem debouncer_expiry_rearms_witness :
    ((⟨Kind.Debouncer, EmissionPolicy.Trailing, 50, true, true, 50⟩ :
        ThrottlerState).kind = Kind.Debouncer) ∧
    (fireTimer ⟨Kind.Debouncer, EmissionPolicy.Trailing, 50, true, true, 50⟩).2 = [50] ∧
    (fireTimer ⟨Kind.Debouncer, EmissionPolicy.Trailing, 50, true, true, 50⟩).1.timerActive
      = true :=
  ⟨rfl, (debouncer_expiry_rearms _ rfl rfl).1,
    (debouncer_expiry_rearms _ rfl rfl).2.2.1⟩

/-- Wrapped function used in the C4 counterexample: it always raises. -/
def c4Wrapped : Nat → Except Nat Nat := fun _ => Except.error 7

/-- C4 counterexample: a `ThrottledCallable` (Debounce+Trailing, timeout
50) is invoked at t = 0 with a wrapped function that raises; at the firing
the exception escapes the timer slot (reported to the event loop) and the
outstanding future is left pending — it is never resolved with the
failure. -/
theorem tc_wrapped_failure_cex :
    (tcRunUntil [(0, TCOp.callOp 1)] 200 c4Wrapped
       (tcInitial Kind.Debouncer EmissionPolicy.Trailing 50 0)).2 = [7] ∧
    (tcRunUntil [(0, TCOp.callOp 1)] 200 c4Wrapped
       (tcInitial Kind.Debouncer EmissionPolicy.Trailing 50 0)).1.futures.getLast?
      = some FutureState.pending := by
  exact ⟨rfl, rfl⟩

/-- C4 amended: when the wrapped function of a `ThrottledCallable` raises
during a firing, `_set_future_result` never reaches `set_result`: the
exception propagates out of the firing callback (and the timer is not
re-armed), and the outstanding future is left exactly as it was —
unresolved, with no failure attached. -/
theorem tc_firing_failure_escapes {α ρ ε : Type} (w : α → Except ε ρ)
    (s : TCState α ρ) (now : Nat) (e : ε)
    (h : w s.latestArgs = Except.error e) :
    (tcEmitTriggered now w s).2 = some e ∧
    (tcEmitTriggered now w s).1.futures = s.futures ∧
    (tcEmitTriggered now w s).1.thr.timerActive = s.thr.timerActive := by
  simp [tcEmitTriggered, tcSetFutureResult, h]

/-- Witness for C4's amended theorem. -/
theorem tc_firing_failure_escapes_witness :
    (c4Wrapped (tcInitial Kind.Debouncer EmissionPolicy.Trailing 50
        (0 : Nat) (ρ := Nat)).latestArgs = Except.error 7) ∧
    (tcEmitTriggered 0 c4Wrapped
        (tcInitial Kind.Debouncer EmissionPolicy.Trailing 50 0)).2 = some 7 :=
  ⟨rfl, (tc_firing_failure_escapes c4Wrapped _ 0 7 rfl).1⟩

/-- Wrapped function used in the C5 counterexample. -/
def c5Wrapped : Nat → Except Nat Nat := fun n => Except.ok n

/-- C5 counterexample: invoking a Debounce+Trailing `ThrottledCallable` at
t = 0 and then calling `cancel()` leaves the outstanding future pending —
`cancel` never cancels it, contrary to the claim. -/
theorem tc_cancel_cex :
    (tcCancel (tcCall 0 5 c5Wrapped
        (tcInitial Kind.Debouncer EmissionPolicy.Trailing 50 0)).1).futures.getLast?
      = some FutureState.pending ∧
    (tcCancel (tcCall 0 5 c5Wrapped
        (tcInitial Kind.Debouncer EmissionPolicy.Trailing 50 0)).1).futures.getLast?
      ≠ some FutureState.cancelled := by
  exact ⟨rfl, by decide⟩

/-- C5 amended: `cancel()` on a `ThrottledCallable` runs the controller's
`cancel`, clearing `hasPendingEmission`; the pending firing is thereby
suppressed, so a later timer expiry resolves nothing and raises nothing —
but the outstanding future itself is NOT cancelled: the futures are left
exactly as they were. -/
theorem tc_cancel_suppresses_only {α ρ ε : Type} (w : α → Except ε ρ)
    (s : TCState α ρ) (t : Nat) :
    (tcCancel s).thr.hasPendingEmission = false ∧
    (tcCancel s).futures = s.futures ∧
    (tcCancel s).latestArgs = s.latestArgs ∧
    (tcCancel s).thr.timerActive = s.thr.timerActive ∧
    (tcAdvanceTo t w (tcCancel s)).1.futures = s.futures ∧
    (tcAdvanceTo t w (tcCancel s)).2 = none := by
  refine ⟨rfl, rfl, rfl, rfl, ?_, ?_⟩ <;>
    (simp [tcCancel, cancel, tcAdvanceTo, tcFireTimer, tcMaybeEmitTriggered];
      split <;> rfl)

/-- Helper for C1: from the armed state left by a Debounce+Trailing call
at `prev`, every further call arriving before the deadline re-arms the
timer to its own time plus the timeout and emits nothing: after the whole
burst, the deadline sits at the last call plus the timeout. -/
theorem debounce_trailing_burst (T prev : Nat) (ts : List Nat)
    (h : List.Chain' (fun a b => a < b ∧ b < a + T) (prev :: ts)) :
    runTrace (ts.map fun t => (t, Op.throttleOp))
        ⟨Kind.Debouncer, EmissionPolicy.Trailing, T, true, true, prev + T⟩
      = (⟨Kind.Debouncer, EmissionPolicy.Trailing, T, true, true,
          (prev :: ts).getLast (List.cons_ne_nil _ _) + T⟩, []) := by
  induction ts generalizing prev with
  | nil => simp [runTrace]
  | cons t rest ih =>
      rw [List.chain'_cons] at h
      obtain ⟨⟨h1, h2⟩, h3⟩ := h
      have hlt : ¬ (prev + T ≤ t) := by omega
      have hstep : stepEvent (t, Op.throttleOp)
          ⟨Kind.Debouncer, EmissionPolicy.Trailing, T, true, true, prev + T⟩
          = (⟨Kind.Debouncer, EmissionPolicy.Trailing, T, true, true, t + T⟩, []) := by
        simp [stepEvent, advanceTo, applyOp, throttle, timerStart, hlt]
      simp only [List.map_cons, runTrace, hstep, ih t h3]
      simp [List.getLast]

/-- Helper for C1: the armed state fires exactly once when observed past
its deadline; the automatic re-arm performed by `_emitTriggered` produces
no second emission because the pending flag is now clear. -/
theorem advance_fires_pending (T h t : Nat) (k : Kind) (pol : EmissionPolicy)
    (hd : t + T ≤ h) :
    (advanceTo h ⟨k, pol, T, true, true, t + T⟩).2 = [t + T] := by
  simp [advanceTo, fireTimer, maybeEmitTriggered, emitTriggered, timerStart, hd]
  split <;> rfl

/-- C1: for every burst of `throttle()` calls on a Debounce+Trailing
controller in which consecutive calls are spaced closer than the timeout,
the `triggered` signal is emitted exactly once, at `timeoutMs` after the
last call of the burst: each new call re-arms the timer, pushing the
firing out. -/
theorem debounce_trailing_fires_once (T horizon : Nat) (ts : List Nat)
    (hne : ts ≠ [])
    (hchain : List.Chain' (fun a b => a < b ∧ b < a + T) ts)
    (hhor : ts.getLast hne + T ≤ horizon) :
    (runUntil (ts.map fun t => (t, Op.throttleOp)) horizon
        (initialState Kind.Debouncer EmissionPolicy.Trailing T)).2
      = [ts.getLast hne + T] := by
  obtain ⟨t0, rest, rfl⟩ := List.exists_cons_of_ne_nil hne
  have hstep : stepEvent (t0, Op.throttleOp)
      (initialState Kind.Debouncer EmissionPolicy.Trailing T)
      = (⟨Kind.Debouncer, EmissionPolicy.Trailing, T, true, true, t0 + T⟩, []) := by
    simp [stepEvent, advanceTo, applyOp, throttle, initialState, timerStart]
  simp only [runUntil, List.map_cons, runTrace, hstep,
    debounce_trailing_burst T t0 rest hchain]
  simp [advance_fires_pending T horizon _ _ _ hhor]

/-- Witness for C1 at the spec scenario: timeout 50, calls at 0, 10, 20;
the only emission is at 70. -/
theorem debounce_trailing_fires_once_witness :
    ([0, 10, 20] : List Nat) ≠ [] ∧
    (runUntil ([0, 10, 20].map fun t => (t, Op.throttleOp)) 200
        (initialState Kind.Debouncer EmissionPolicy.Trailing 50)).2 = [70] := by
  refine ⟨by decide, ?_⟩
  have := debounce_trailing_fires_once 50 200 [0, 10, 20] (by decide)
    (by simp [List.chain'_cons]) (by decide)
  simpa using this

/-- Invariant behind the rate-limiting argument, at current time `u` with
emission log `L`: recorded emissions are at least one timeout apart, an
armed deadline lies at most one timeout in the future, and the last
emission lies at least one timeout before the armed deadline (resp. before
the current time, when the timer is idle). -/
def SepInv (T u : Nat) (s : ThrottlerState) (L : List Nat) : Prop :=
  s.interval = T ∧
  List.Chain' (fun a b => a + T ≤ b) L ∧
  (s.timerActive = true → s.deadline ≤ u + T) ∧
  (∀ l, L.getLast? = some l →
    (s.timerActive = true → l + T ≤ s.deadline) ∧
    (s.timerActive = false → l + T ≤ u))

theorem sepInv_mono {T u u' : Nat} {s : ThrottlerState} {L : List Nat}
    (h : SepInv T u s L) (hu : u ≤ u') : SepInv T u' s L := by
  obtain ⟨h1, h2, h3, h4⟩ := h
  exact ⟨h1, h2, fun ha => le_trans (h3 ha) (by omega),
    fun l hl => ⟨(h4 l hl).1, fun hi => le_trans ((h4 l hl).2 hi) hu⟩⟩

theorem emitTriggered_eq (u : Nat) (s : ThrottlerState) :
    emitTriggered u s
      = ({ s with
            hasPendingEmission := false
            timerActive := true
            deadline := u + s.interval }, [u]) := rfl

theorem fireTimer_of_pending {s : ThrottlerState}
    (hp : s.hasPendingEmission = true) :
    fireTimer s
      = ({ s with
            hasPendingEmission := false
            timerActive := true
            deadline := s.deadline + s.interval }, [s.deadline]) := by
  simp [fireTimer, maybeEmitTriggered, emitTriggered, timerStart, hp]

theorem fireTimer_of_idle {s : ThrottlerState}
    (hp : s.hasPendingEmission = false) :
    fireTimer s = ({ s with timerActive := false }, []) := by
  simp [fireTimer, maybeEmitTriggered, hp]

/-- Appending one emission at time `u` preserves separation when the last
recorded emission is at least one timeout before `u`. -/
theorem chain_concat {T u : Nat} {L : List Nat}
    (h2 : List.Chain' (fun a b => a + T ≤ b) L)
    (hlast : ∀ l, L.getLast? = some l → l + T ≤ u) :
    List.Chain' (fun a b => a + T ≤ b) (L ++ [u]) :=
  List.chain'_append.mpr ⟨h2, List.chain'_singleton u,
    fun x hx y hy => by simp at hy; subst hy; exact hlast x hx⟩

theorem sepInv_fire {T u : Nat} {s : ThrottlerState} {L : List Nat}
    (hact : s.timerActive = true) (h : SepInv T u s L) :
    SepInv T s.deadline (fireTimer s).1 (L ++ (fireTimer s).2) := by
  obtain ⟨h1, h2, h3, h4⟩ := h
  rcases hp : s.hasPendingEmission with _ | _
  · rw [fireTimer_of_idle hp]
    refine ⟨h1, by simpa using h2, by simp, ?_⟩
    intro l hl
    simp only [List.append_nil] at hl
    exact ⟨by simp, fun _ => (h4 l hl).1 hact⟩
  · rw [fireTimer_of_pending hp]
    refine ⟨h1, chain_concat h2 (fun l hl => (h4 l hl).1 hact), by simp [h1], ?_⟩
    intro l hl
    rw [List.getLast?_concat] at hl
    cases hl
    simp [h1]

theorem sepInv_advance {T u t : Nat} {s : ThrottlerState} {L : List Nat}
    (hu : u ≤ t) (h : SepInv T u s L) :
    SepInv T t (advanceTo t s).1 (L ++ (advanceTo t s).2) := by
  unfold advanceTo
  by_cases hc : s.timerActive = true ∧ s.deadline ≤ t
  · rw [if_pos hc]
    have hq := sepInv_fire hc.1 h
    by_cases hc2 : (fireTimer s).1.timerActive = true ∧ (fireTimer s).1.deadline ≤ t
    · rw [if_pos hc2]
      have hr := sepInv_fire hc2.1 hq
      rw [List.append_assoc] at hr
      exact sepInv_mono hr hc2.2
    · rw [if_neg hc2]
      exact sepInv_mono hq hc.2
  · rw [if_neg hc]
    simpa using sepInv_mono h hu

theorem sepInv_throttle {T t : Nat} {s : ThrottlerState} {L : List Nat}
    (h : SepInv T t s L) :
    SepInv T t (throttle t s).1 (L ++ (throttle t s).2) := by
  obtain ⟨h1, h2, h3, h4⟩ := h
  rcases hk : s.kind with _ | _ <;> rcases hact : s.timerActive with _ | _ <;>
    rcases hpol : s.emissionPolicy with _ | _ <;>
      simp only [throttle, emitTriggered, timerStart, hk, hact, hpol] <;>
      simp <;>
      refine ⟨h1, ?_, ?_, ?_⟩
  -- Throttler, idle timer, Trailing: arm the timer, no emission
  · exact h2
  · intro _; simp [h1]
  · intro l hl
    refine ⟨fun _ => ?_, by simp⟩
    have := (h4 l hl).2 hact; simp [h1]; omega
  -- Throttler, idle timer, Leading: immediate emission, arm the timer
  · exact chain_concat h2 (fun l hl => (h4 l hl).2 hact)
  · intro _; simp [h1]
  · intro l hl
    rw [List.getLast?_concat] at hl
    cases hl
    exact ⟨fun _ => by simp [h1], by simp⟩
  -- Throttler, armed timer, Trailing: only the pending flag changes
  · exact h2
  · intro _; simpa using h3 hact
  · intro l hl
    exact ⟨fun _ => by simpa using (h4 l hl).1 hact, by simp⟩
  -- Throttler, armed timer, Leading: no immediate emission, no re-arm
  · exact h2
  · intro _; simpa using h3 hact
  · intro l hl
    exact ⟨fun _ => by simpa using (h4 l hl).1 hact, by simp⟩
  -- Debouncer, idle timer, Trailing: arm the timer
  · exact h2
  · intro _; simp [h1]
  · intro l hl
    refine ⟨fun _ => ?_, by simp⟩
    have := (h4 l hl).2 hact; simp [h1]; omega
  -- Debouncer, idle timer, Leading: immediate emission, restart
  · exact chain_concat h2 (fun l hl => (h4 l hl).2 hact)
  · intro _; simp [h1]
  · intro l hl
    rw [List.getLast?_concat] at hl
    cases hl
    exact ⟨fun _ => by simp [h1], by simp⟩
  -- Debouncer, armed timer, Trailing: restart pushes the deadline out
  · exact h2
  · intro _; simp [h1]
  · intro l hl
    refine ⟨fun _ => ?_, by simp⟩
    have ha := (h4 l hl).1 hact; have hb := h3 hact; simp [h1]; omega
  -- Debouncer, armed timer, Leading: restart pushes the deadline out
  · exact h2
  · intro _; simp [h1]
  · intro l hl
    refine ⟨fun _ => ?_, by simp⟩
    have ha := (h4 l hl).1 hact; have hb := h3 hact; simp [h1]; omega

theorem sepInv_runThrottles {T : Nat} (ts : List Nat) (u : Nat)
    (s : ThrottlerState) (L : List Nat)
    (hsort : List.Chain' (fun a b => a ≤ b) (u :: ts))
    (h : SepInv T u s L) :
    SepInv T ((u :: ts).getLast (List.cons_ne_nil _ _))
      (runTrace (ts.map fun t => (t, Op.throttleOp)) s).1
      (L ++ (runTrace (ts.map fun t => (t, Op.throttleOp)) s).2) := by
  induction ts generalizing u s L with
  | nil => simpa [runTrace] using h
  | cons t rest ih =>
      rw [List.chain'_cons] at hsort
      obtain ⟨hut, h3⟩ := hsort
      have hth := sepInv_throttle (sepInv_advance hut h)
      have hrest := ih t (throttle t (advanceTo t s).1).1 _ h3 hth
      simp only [List.map_cons, runTrace, stepEvent, applyOp]
      simpa [List.append_assoc, List.getLast] using hrest

/-- C2: for every burst of `throttle()` calls on a Throttle+Leading
controller with consecutive calls spaced closer than the timeout,
consecutive `triggered` emissions are at least one timeout apart (at most
one firing per window), the first call fires immediately (the first
emission is at the first call time), and, in general, a `throttle()` call
that finds the timer idle under a Leading policy emits synchronously at
its own time. -/
theorem throttle_leading_rate_limited (T horizon : Nat) (t0 : Nat)
    (rest : List Nat)
    (hchain : List.Chain' (fun a b => a < b ∧ b < a + T) (t0 :: rest))
    (hhor : (t0 :: rest).getLast (List.cons_ne_nil _ _) ≤ horizon) :
    List.Chain' (fun a b => a + T ≤ b)
      (runUntil ((t0 :: rest).map fun t => (t, Op.throttleOp)) horizon
        (initialState Kind.Throttler EmissionPolicy.Leading T)).2 ∧
    (runUntil ((t0 :: rest).map fun t => (t, Op.throttleOp)) horizon
        (initialState Kind.Throttler EmissionPolicy.Leading T)).2.head?
      = some t0 ∧
    (∀ (s : ThrottlerState) (t : Nat),
      s.emissionPolicy = EmissionPolicy.Leading → s.timerActive = false →
      (throttle t s).2 = [t]) := by
  have hsorted : List.Chain' (fun a b => a ≤ b) (t0 :: t0 :: rest) :=
    List.chain'_cons.mpr ⟨le_refl t0,
      List.Chain'.imp (fun a b hab => le_of_lt hab.1) hchain⟩
  have hinit : SepInv T t0 (initialState Kind.Throttler EmissionPolicy.Leading T) [] :=
    ⟨rfl, List.chain'_nil, by simp [initialState], fun l hl => by simp at hl⟩
  have htrace := sepInv_runThrottles (t0 :: rest) t0 _ [] hsorted hinit
  have hfinal := sepInv_advance (t := horizon) (by simpa using hhor) htrace
  refine ⟨?_, ?_, ?_⟩
  · have := hfinal.2.1
    simpa [runUntil, List.append_assoc] using this
  · have hstep : stepEvent (t0, Op.throttleOp)
        (initialState Kind.Throttler EmissionPolicy.Leading T)
        = (⟨Kind.Throttler, EmissionPolicy.Leading, T, false, true, t0 + T⟩,
            [t0]) := by
      simp [stepEvent, advanceTo, applyOp, throttle, emitTriggered,
        initialState, timerStart]
    simp [runUntil, List.map_cons, runTrace, hstep]
  · intro s t hpol hact
    rcases hk : s.kind with _ | _ <;>
      simp [throttle, emitTriggered, timerStart, hpol, hact, hk]

/-- Witness for C2 at the spec scenario: timeout 100, calls at 0 and 30,
observed to 300; the emission log is `[0, 100]`, whose entries are 100
apart and whose first entry is the first call time. -/
theorem throttle_leading_rate_limited_witness :
    List.Chain' (fun a b => a < b ∧ b < a + 100) [0, 30] ∧
    (runUntil ([0, 30].map fun t => (t, Op.throttleOp)) 300
        (initialState Kind.Throttler EmissionPolicy.Leading 100)).2.head?
      = some 0 := by
  refine ⟨by simp [List.chain'_cons], ?_⟩
  exact (throttle_leading_rate_limited 100 300 0 [30]
    (by simp [List.chain'_cons]) (by decide)).2.1

/-- C6: when a `ThrottledCallable` (either kind, Trailing policy) is
invoked a second time while the future returned by the first invocation is
still unresolved — which the first conjunct establishes for calls closer
together than the timeout — the first returned future ends in the
cancelled terminal state, only the future returned by the second call
resolves, and it resolves with the wrapped function applied to the
latest arguments `b`, not the superseded arguments `a`.  (`futures` lists
every future of the object in creation order: the constructor's initial
future, then the future returned by each call.) -/
theorem tc_second_call_supersedes {α ρ ε : Type} (k : Kind)
    (T t1 t2 horizon : Nat) (a b a0 : α) (v : ρ) (w : α → Except ε ρ)
    (h1 : t1 < t2) (h2 : t2 < t1 + T) (h3 : t2 + T ≤ horizon)
    (hw : w b = Except.ok v) :
    (tcAdvanceTo t2 w
        (tcCall t1 a w (tcInitial k EmissionPolicy.Trailing T a0)).1).1.futures.getLast?
      = some FutureState.pending ∧
    (tcRunUntil [(t1, TCOp.callOp a), (t2, TCOp.callOp b)] horizon w
        (tcInitial k EmissionPolicy.Trailing T a0)).1.futures
      = [FutureState.cancelled, FutureState.cancelled, FutureState.resolved v] ∧
    (tcRunUntil [(t1, TCOp.callOp a), (t2, TCOp.callOp b)] horizon w
        (tcInitial k EmissionPolicy.Trailing T a0)).2 = [] := by
  have hn2 : ¬ (t1 + T ≤ t2) := by omega
  have hd1 : t1 + T ≤ horizon := by omega
  rcases k with _ | _
  · refine ⟨?_, ?_, ?_⟩
    · simp [tcCall, tcThrottle, tcInitial, initialState, setLast, futureDone,
        timerStart, tcAdvanceTo, hn2]
    · by_cases hs : t1 + T + T ≤ horizon <;>
        simp [tcRunUntil, tcRunTrace, tcStepEvent, tcApplyOp, tcCall,
          tcThrottle, tcInitial, initialState, setLast, futureDone,
          timerStart, tcAdvanceTo, tcFireTimer, tcMaybeEmitTriggered,
          tcEmitTriggered, tcSetFutureResult, hw, hn2, hd1, hs]
    · by_cases hs : t1 + T + T ≤ horizon <;>
        simp [tcRunUntil, tcRunTrace, tcStepEvent, tcApplyOp, tcCall,
          tcThrottle, tcInitial, initialState, setLast, futureDone,
          timerStart, tcAdvanceTo, tcFireTimer, tcMaybeEmitTriggered,
          tcEmitTriggered, tcSetFutureResult, hw, hn2, hd1, hs]
  · refine ⟨?_, ?_, ?_⟩
    · simp [tcCall, tcThrottle, tcInitial, initialState, setLast, futureDone,
        timerStart, tcAdvanceTo, hn2]
    · by_cases hs : t2 + T + T ≤ horizon <;>
        simp [tcRunUntil, tcRunTrace, tcStepEvent, tcApplyOp, tcCall,
          tcThrottle, tcInitial, initialState, setLast, futureDone,
          timerStart, tcAdvanceTo, tcFireTimer, tcMaybeEmitTriggered,
          tcEmitTriggered, tcSetFutureResult, hw, hn2, h3, hs]
    · by_cases hs : t2 + T + T ≤ horizon <;>
        simp [tcRunUntil, tcRunTrace, tcStepEvent, tcApplyOp, tcCall,
          tcThrottle, tcInitial, initialState, setLast, futureDone,
          timerStart, tcAdvanceTo, tcFireTimer, tcMaybeEmitTriggered,
          tcEmitTriggered, tcSetFutureResult, hw, hn2, h3, hs]

/-- Witness for C6: Debounce+Trailing, timeout 50, calls at 0 and 20 with
arguments 1 and 2, wrapped function multiplies by 10; the first returned
future is cancelled and the second resolves to 20. -/
theorem tc_second_call_supersedes_witness :
    (0 : Nat) < 20 ∧ (20 : Nat) < 0 + 50 ∧ (20 : Nat) + 50 ≤ 200 ∧
    (tcRunUntil [(0, TCOp.callOp 1), (20, TCOp.callOp 2)] 200
        (fun n : Nat => (Except.ok (n * 10) : Except Nat Nat))
        (tcInitial Kind.Debouncer EmissionPolicy.Trailing 50 0)).1.futures
      = [FutureState.cancelled, FutureState.cancelled,
          FutureState.resolved 20] :=
  ⟨by decide, by decide, by decide,
    (tc_second_call_supersedes Kind.Debouncer 50 0 20 200 1 2 0 20
      (fun n => Except.ok (n * 10)) (by decide) (by decide) (by decide)
      rfl).2.1⟩

/-- Helper for C9: while both slots hold the context manager's
replacements, `throttle` emits immediately at each call time and `flush`
does nothing, and the controller state is never touched. -/
theorem runScoped_swapped (body : List ScopedOp) (o : SwappableThrottler)
    (ht : o.throttleSlot = MethodSlot.swapped)
    (hf : o.flushSlot = MethodSlot.swapped) :
    runScoped body o = (o, throttleTimes body) := by
  induction body with
  | nil => simp [runScoped, throttleTimes]
  | cons op rest ih =>
      cases op <;>
        simp [runScoped, doThrottle, doFlush, ht, hf, throttleTimes, ih]

/-- C9: `throttling_disabled` swaps the object's `throttle` for an
immediate-fire pass-through (each in-scope throttle call emits at its own
time, with no state change) and its `flush` for a no-op, and restores the
original `throttle`/`flush` attributes on every exit path — normal
completion and a failure raised inside the scope alike (the final object
is exactly the original one); an object that is neither a
`GenericSignalThrottler` nor adaptable through a `throttler` attribute
raises `TypeError` immediately. -/
theorem throttling_disabled_contract (o : SwappableThrottler)
    (body : List ScopedOp) (err : String) :
    throttlingDisabled ThrottleTarget.notAdaptable body none
      = CMOutcome.typeErr ∧
    throttlingDisabled ThrottleTarget.notAdaptable body (some err)
      = CMOutcome.typeErr ∧
    throttlingDisabled (ThrottleTarget.controller o) body none
      = CMOutcome.completed o (throttleTimes body) ∧
    throttlingDisabled (ThrottleTarget.controller o) body (some err)
      = CMOutcome.raised err o (throttleTimes body) ∧
    throttlingDisabled (ThrottleTarget.withThrottlerAttr o) body none
      = CMOutcome.completed o (throttleTimes body) ∧
    throttlingDisabled (ThrottleTarget.withThrottlerAttr o) body (some err)
      = CMOutcome.raised err o (throttleTimes body) := by
  obtain ⟨st, ts, fs⟩ := o
  have hcore := runScoped_swapped body
    ⟨st, MethodSlot.swapped, MethodSlot.swapped⟩ rfl rfl
  refine ⟨rfl, rfl, ?_, ?_, ?_, ?_⟩ <;>
    simp [throttlingDisabled, throttlingDisabledCore, hcore]

/-- Helper for C8: a call dispatched through a receiver whose bound caller
is already cached mutates only that receiver's heap cell and leaves the
instance caches untouched. -/
theorem callVia_frame {α ρ ε : Type} (a0 : α) (fm : Option Nat → α → Except ε ρ)
    (i t : Nat) (a : α) (w : DescWorld α ρ) (ri : Nat)
    (hi : alistLookup w.instAttrs i = some ri) :
    (callVia a0 fm i t a w).1.instAttrs = w.instAttrs ∧
    ∀ r, r ≠ ri → (callVia a0 fm i t a w).1.heap.get? r = w.heap.get? r := by
  unfold callVia accessAttr
  simp only [hi]
  rcases hg : w.heap.get? ri with _ | obj
  · simp [hg]
  · simp only [hg]
    exact ⟨trivial, fun r hr => List.get?_set_ne _ _ (fun hc => hr hc.symm)⟩

/-- Helper for C8: a burst of calls, all dispatched through one cached
receiver, leaves every other heap cell and the instance caches unchanged. -/
theorem callsVia_frame {α ρ ε : Type} (a0 : α) (fm : Option Nat → α → Except ε ρ)
    (i : Nat) (calls : List (Nat × α)) (w : DescWorld α ρ) (ri : Nat)
    (hi : alistLookup w.instAttrs i = some ri) :
    (callsVia a0 fm i calls w).1.instAttrs = w.instAttrs ∧
    ∀ r, r ≠ ri →
      (callsVia a0 fm i calls w).1.heap.get? r = w.heap.get? r := by
  induction calls generalizing w with
  | nil => exact ⟨rfl, fun _ _ => rfl⟩
  | cons c cs ih =>
      obtain ⟨hattrs, hheap⟩ := callVia_frame a0 fm i c.1 c.2 w ri hi
      obtain ⟨ihattrs, ihheap⟩ :=
        ih (callVia a0 fm i c.1 c.2 w).1 (by rw [hattrs]; exact hi)
      refine ⟨?_, fun r hr => ?_⟩
      · simp only [callsVia]
        rw [ihattrs, hattrs]
      · simp only [callsVia]
        rw [ihheap r hr, hheap r hr]

/-- C8: for a class-level `ThrottledCallable` template with a name
assigned by `__set_name__` and a non-static wrapped callable, descriptor
access through each of two distinct receivers yields an independent bound
caller: a freshly allocated object (not the template) whose kind, policy,
timeout and timer type copy the template's and whose controller state,
arguments and future are brand new; it is cached on the receiver at first
access, a repeated access returns the cached object, the two receivers get
two different objects, and a burst of calls through receiver `A` leaves
receiver `B`'s bound caller completely untouched. -/
theorem tc_descriptor_binds_per_instance {α ρ ε : Type} (a0 : α)
    (fm : Option Nat → α → Except ε ρ) (w : DescWorld α ρ)
    (tmpl : TCObject α ρ) (A B : Nat) (calls : List (Nat × α))
    (hT : w.heap.get? w.templateRef = some tmpl)
    (hname : nameFalsy tmpl.name = false) (hstat : tmpl.isStatic = false)
    (hAB : A ≠ B)
    (hAmiss : alistLookup w.instAttrs A = none)
    (hBmiss : alistLookup w.instAttrs B = none) :
    (accessAttr a0 w (some A)).2.heap.get? (accessAttr a0 w (some A)).1
      = some (freshBound tmpl A a0) ∧
    (accessAttr a0 w (some A)).1 ≠ w.templateRef ∧
    alistLookup (accessAttr a0 w (some A)).2.instAttrs A
      = some (accessAttr a0 w (some A)).1 ∧
    (freshBound tmpl A a0).tc.thr.kind = tmpl.tc.thr.kind ∧
    (freshBound tmpl A a0).tc.thr.emissionPolicy = tmpl.tc.thr.emissionPolicy ∧
    (freshBound tmpl A a0).tc.thr.interval = tmpl.tc.thr.interval ∧
    (freshBound tmpl A a0).timerType = tmpl.timerType ∧
    (freshBound tmpl A a0).tc.thr.hasPendingEmission = false ∧
    (freshBound tmpl A a0).tc.thr.timerActive = false ∧
    (freshBound tmpl A a0).tc.futures = [FutureState.pending] ∧
    accessAttr a0 (accessAttr a0 w (some A)).2 (some A)
      = ((accessAttr a0 w (some A)).1, (accessAttr a0 w (some A)).2) ∧
    (accessAttr a0 (accessAttr a0 w (some A)).2 (some B)).1
      ≠ (accessAttr a0 w (some A)).1 ∧
    (callsVia a0 fm A calls
        (accessAttr a0 (accessAttr a0 w (some A)).2 (some B)).2).1.heap.get?
        (accessAttr a0 (accessAttr a0 w (some A)).2 (some B)).1
      = (accessAttr a0 (accessAttr a0 w (some A)).2 (some B)).2.heap.get?
        (accessAttr a0 (accessAttr a0 w (some A)).2 (some B)).1 ∧
    alistLookup (callsVia a0 fm A calls
        (accessAttr a0 (accessAttr a0 w (some A)).2 (some B)).2).1.instAttrs B
      = some (accessAttr a0 (accessAttr a0 w (some A)).2 (some B)).1 := by
  have hlen : w.templateRef < w.heap.length := (List.get?_eq_some.mp hT).1
  have hcond : ¬ (nameFalsy tmpl.name = true ∨ tmpl.isStatic = true) := by
    simp [hname, hstat]
  have haccA : accessAttr a0 w (some A) = (w.heap.length,
      { w with heap := w.heap ++ [freshBound tmpl A a0],
               instAttrs := (A, w.heap.length) :: w.instAttrs }) := by
    simp only [accessAttr, hAmiss, dunderGet, hT]
    rw [if_neg hcond]
  have hlookB : alistLookup ((A, w.heap.length) :: w.instAttrs) B = none := by
    simp only [alistLookup]
    rw [if_neg hAB]
    exact hBmiss
  have hgetT1 : (w.heap ++ [freshBound tmpl A a0]).get? w.templateRef
      = some tmpl := by
    rw [List.get?_append hlen]; exact hT
  have haccB : accessAttr a0
      { w with heap := w.heap ++ [freshBound tmpl A a0],
               instAttrs := (A, w.heap.length) :: w.instAttrs } (some B)
      = (w.heap.length + 1,
        { w with heap := (w.heap ++ [freshBound tmpl A a0])
                           ++ [freshBound tmpl B a0],
                 instAttrs := (B, w.heap.length + 1)
                                :: (A, w.heap.length) :: w.instAttrs }) := by
    simp only [accessAttr, hlookB, dunderGet, hgetT1]
    rw [if_neg hcond]
    simp [List.length_append]
  have hA2 : alistLookup
      ((B, w.heap.length + 1) :: (A, w.heap.length) :: w.instAttrs) A
      = some w.heap.length := by
    simp only [alistLookup]
    rw [if_neg (fun h => hAB h.symm)]
    simp
  refine ⟨?_, ?_, ?_, rfl, rfl, rfl, rfl, rfl, rfl, rfl, ?_, ?_, ?_, ?_⟩
  · rw [haccA]
    exact List.get?_concat_length _ _
  · rw [haccA]
    exact ne_of_gt hlen
  · rw [haccA]
    simp [alistLookup]
  · rw [haccA]
    simp [accessAttr, alistLookup]
  · rw [haccA, haccB]
    simp
  · rw [haccA, haccB]
    exact (callsVia_frame a0 fm A calls _ _ hA2).2 _ (by simp)
  · rw [haccA, haccB]
    rw [(callsVia_frame a0 fm A calls _ _ hA2).1]
    simp [alistLookup]

/-- Template object used by the C8 witness: a named, non-static
class-level `ThrottledCallable`. -/
def c8Tmpl : TCObject Nat Nat :=
  ⟨tcInitial Kind.Throttler EmissionPolicy.Leading 100 0, 3, some "f", false,
    none⟩

/-- World of the C8 witness: the template alone on the heap, no cached
bound callers. -/
def c8World : DescWorld Nat Nat := ⟨[c8Tmpl], 0, []⟩

/-- Witness for C8: receivers 1 and 2, a burst of two calls through
receiver 1; the first access through receiver 1 allocates the fresh bound
caller. -/
theorem tc_descriptor_binds_per_instance_witness :
    (c8World.heap.get? c8World.templateRef = some c8Tmpl) ∧
    nameFalsy c8Tmpl.name = false ∧
    c8Tmpl.isStatic = false ∧
    (1 : Nat) ≠ 2 ∧
    alistLookup c8World.instAttrs 1 = none ∧
    alistLookup c8World.instAttrs 2 = none ∧
    (accessAttr 0 c8World (some 1)).2.heap.get? (accessAttr 0 c8World (some 1)).1
      = some (freshBound c8Tmpl 1 0) :=
  ⟨rfl, by decide, rfl, by decide, rfl, rfl,
    (tc_descriptor_binds_per_instance 0
      (fun _ n => (Except.ok n : Except Nat Nat)) c8World c8Tmpl
      1 2 [(0, 5), (10, 6)] rfl (by decide) rfl (by decide) rfl rfl).1⟩

/-- C10: whenever descriptor access on a class-level `ThrottledCallable`
goes through the class (`inst = none`), or `__set_name__` never assigned a
(non-empty) name, or the wrapped callable is a staticmethod, `__get__`
returns the single shared template object itself — the same heap reference
for every such access path, with no fresh allocation and no caching — so
every call made through such a path operates on the template's one
controller, `latestArgs` and future. -/
theorem tc_descriptor_degenerate_access_shares {α ρ : Type} (a0 : α)
    (w : DescWorld α ρ) (tmpl : TCObject α ρ)
    (hT : w.heap.get? w.templateRef = some tmpl) (inst : Option Nat)
    (h : inst = none ∨ nameFalsy tmpl.name = true ∨ tmpl.isStatic = true) :
    dunderGet a0 w inst = (w.templateRef, w) ∧
    ∀ inst2 : Option Nat,
      (inst2 = none ∨ nameFalsy tmpl.name = true ∨ tmpl.isStatic = true) →
      (dunderGet a0 w inst2).1 = (dunderGet a0 w inst).1 := by
  have key : ∀ (j : Option Nat),
      (j = none ∨ nameFalsy tmpl.name = true ∨ tmpl.isStatic = true) →
      dunderGet a0 w j = (w.templateRef, w) := by
    intro j hj
    rcases j with _ | i
    · simp only [dunderGet]
      split <;> rfl
    · rcases hj with hj | hj
      · exact absurd hj (by simp)
      · simp only [dunderGet, hT]
        rw [if_pos hj]
  exact ⟨key inst h, fun j hj => by rw [key j hj, key inst h]⟩

/-- Template object used by the C10 witness: `__set_name__` never ran, so
`_name` is unset. -/
def c10Tmpl : TCObject Nat Nat :=
  ⟨tcInitial Kind.Throttler EmissionPolicy.Leading 100 0, 3, none, false,
    none⟩

/-- World of the C10 witness. -/
def c10World : DescWorld Nat Nat := ⟨[c10Tmpl], 0, []⟩

/-- Witness for C10: instance access on an unnamed template returns the
shared template object itself and leaves the world unchanged. -/
theorem tc_descriptor_degenerate_access_shares_witness :
    (c10World.heap.get? c10World.templateRef = some c10Tmpl) ∧
    nameFalsy c10Tmpl.name = true ∧
    dunderGet 0 c10World (some 5) = (c10World.templateRef, c10World) :=
  ⟨rfl, rfl,
    (tc_descriptor_degenerate_access_shares 0 c10World c10Tmpl rfl (some 5)
      (Or.inr (Or.inl rfl))).1⟩

end Superqt
